import Mathlib

/-!
Verification development for the NetSecSim monitoring and attack-detection
engine.  The Python sources under `src/dashboard` and `src/scripts` are
shallowly embedded here at the character level: raw command output is a
`List Char`, Python `str.split` / `str.strip` / `str.count` / substring
tests are modelled by executable Lean functions, and the per-cycle data
collection (`DataCollectionThread.collect_network_data` and friends) is
modelled as a pure function of an oracle describing the outcome of each
external command execution.
-/

set_option maxHeartbeats 1000000

namespace NetSecSim

/-- Whitespace test: the default split/strip character class of Python
(space, tab, newline, carriage return, vertical tab, form feed). -/
def isWsB (c : Char) : Bool :=
  decide (c = ' ') || decide (c = '\t') || decide (c = '\n') ||
  decide (c = '\r') || decide (c = Char.ofNat 11) || decide (c = Char.ofNat 12)

/-- Python `str.strip()`: drop leading and trailing whitespace. -/
def pyStrip (l : List Char) : List Char :=
  ((l.dropWhile isWsB).reverse.dropWhile isWsB).reverse

/-- Accumulator-based worker for `splitWs`.  `acc` holds the characters of
the token currently being read, in reverse order. -/
def splitWsAux : List Char → List Char → List (List Char)
  | [], acc => if acc.isEmpty then [] else [acc.reverse]
  | c :: cs, acc =>
    if isWsB c then
      if acc.isEmpty then splitWsAux cs [] else acc.reverse :: splitWsAux cs []
    else splitWsAux cs (c :: acc)

/-- Python `str.split()` with no separator: split on runs of whitespace,
returning the (nonempty) tokens. -/
def splitWs (l : List Char) : List (List Char) :=
  splitWsAux l []

/-- Accumulator-based worker for `splitOnChar`. -/
def splitOnAux (sep : Char) : List Char → List Char → List (List Char)
  | [], acc => [acc.reverse]
  | c :: cs, acc =>
    if c = sep then acc.reverse :: splitOnAux sep cs []
    else splitOnAux sep cs (c :: acc)

/-- Python `str.split(sep)` for a single-character separator: keeps empty
pieces, and the empty string yields one empty piece. -/
def splitOnChar (sep : Char) (l : List Char) : List (List Char) :=
  splitOnAux sep l []

/-- Python substring test `pat in s`. -/
def containsSub (pat : List Char) : List Char → Bool
  | [] => pat.isEmpty
  | c :: cs => pat.isPrefixOf (c :: cs) || containsSub pat cs

/-- Python `s.count('*>')`: number of non-overlapping occurrences of the
best-path marker, scanning left to right. -/
def countMarker : List Char → Nat
  | [] => 0
  | [_] => 0
  | a :: b :: rest =>
    if a = '*' ∧ b = '>' then countMarker rest + 1 else countMarker (b :: rest)

/-- Number of positions at which the best-path marker occurs (occurrences
counted at every index, not skipping after a match). -/
def markerPositions : List Char → Nat
  | [] => 0
  | [_] => 0
  | a :: b :: rest =>
    (if a = '*' ∧ b = '>' then 1 else 0) + markerPositions (b :: rest)

/-- The policy-hold marker looked for in session-summary lines
(`"(Policy)" not in line`). -/
def policyMark : List Char := "(Policy)".toList

/-- Outer guard of the session-counting loop in `netsec_dashboard.py`
lines 402-403 (and identically `netsec_dashboard_v2.py` line 565):
`if line.strip() and '.' in line and len(line.split()) >= 8`. -/
def outerMainB (l : List Char) : Bool :=
  decide (pyStrip l ≠ []) && decide ('.' ∈ l) && decide (8 ≤ (splitWs l).length)

/-- Outer guard of the session-counting loop in
`netsec_dashboard_simple.py` line 407:
`if '.' in line and len(line.split()) >= 8` (no `line.strip()` test). -/
def outerSimpleB (l : List Char) : Bool :=
  decide ('.' ∈ l) && decide (8 ≤ (splitWs l).length)

/-- Inner guard shared by all three dashboard variants:
`if len(parts) >= 10 and parts[0].count('.') == 3` where
`parts = line.split()`.  Python's `and` short-circuits, so `parts[0]` is
only read when `len(parts) >= 10`; `headD []` models that safely. -/
def innerSessB (l : List Char) : Bool :=
  decide (10 ≤ (splitWs l).length) &&
  decide (((splitWs l).headD []).count '.' = 3)

/-- One iteration of the neighbor/established counting loop of
`netsec_dashboard.py` lines 402-408 acting on the counter pair. -/
def stepSessMain (acc : Nat × Nat) (l : List Char) : Nat × Nat :=
  if outerMainB l then
    if innerSessB l then
      (acc.1 + 1, if containsSub policyMark l then acc.2 else acc.2 + 1)
    else acc
  else acc

/-- One iteration of the identical loop in `netsec_dashboard_v2.py`
lines 564-570. -/
def stepSessV2 (acc : Nat × Nat) (l : List Char) : Nat × Nat :=
  if outerMainB l then
    if innerSessB l then
      (acc.1 + 1, if containsSub policyMark l then acc.2 else acc.2 + 1)
    else acc
  else acc

/-- One iteration of the loop in `netsec_dashboard_simple.py` lines
406-412, whose outer guard omits the `line.strip()` test. -/
def stepSessSimple (acc : Nat × Nat) (l : List Char) : Nat × Nat :=
  if outerSimpleB l then
    if innerSessB l then
      (acc.1 + 1, if containsSub policyMark l then acc.2 else acc.2 + 1)
    else acc
  else acc

/-- Session parsing of `netsec_dashboard.py` lines 398-408:
`lines = stdout.strip().split('\n')` followed by the counting loop;
returns the `(neighbor_count, established_count)` pair. -/
def sessionCountsMain (raw : List Char) : Nat × Nat :=
  (splitOnChar '\n' (pyStrip raw)).foldl stepSessMain (0, 0)

/-- Session parsing of `netsec_dashboard_v2.py` lines 559-570. -/
def sessionCountsV2 (raw : List Char) : Nat × Nat :=
  (splitOnChar '\n' (pyStrip raw)).foldl stepSessV2 (0, 0)

/-- Session parsing of `netsec_dashboard_simple.py` lines 403-412. -/
def sessionCountsSimple (raw : List Char) : Nat × Nat :=
  (splitOnChar '\n' (pyStrip raw)).foldl stepSessSimple (0, 0)

/-- A line the main dashboard counts as a neighbor. -/
def isNbrMainB (l : List Char) : Bool :=
  outerMainB l && innerSessB l

/-- A line the main dashboard counts as established: a neighbor line
without the policy-hold marker. -/
def isEstMainB (l : List Char) : Bool :=
  isNbrMainB l && !containsSub policyMark l

/-! Spec-side vocabulary.  These definitions follow the wording of the
specification (section 4.2 and section 8) and are used only to state the
claims that compare the code against the spec; the code-side definitions
above are the authority for what the program does. -/

/-- Modelled from the spec: an IPv4-address-shaped token — four dot-separated
nonempty groups of decimal digits. -/
def addrShapedB (t : List Char) : Bool :=
  decide ((splitOnChar '.' t).length = 4) &&
  (splitOnChar '.' t).all (fun p => !p.isEmpty && p.all Char.isDigit)

/-- Modelled from the spec: a line whose first whitespace-delimited field is
an IPv4-address-shaped token (the spec's session-line recognition rule). -/
def lineAddrShapedB (l : List Char) : Bool :=
  match splitWs l with
  | p0 :: _ => addrShapedB p0
  | [] => false

/-- The best-path marker used by the route dumps. -/
def bestMark : List Char := "*>".toList

/-- Modelled from the spec: a route-record line — one that (after stripping
leading and trailing whitespace, as the attack simulator does) begins with
the best-path marker. -/
def bestPathLineB (l : List Char) : Bool :=
  bestMark.isPrefixOf (pyStrip l)

/-- Route counting of `working_attack_simulator.py` line 93:
`len([l for l in stdout.split('\n') if l.strip().startswith('*>')])`. -/
def routeCountSim (raw : List Char) : Nat :=
  ((splitOnChar '\n' raw).filter (fun l => bestMark.isPrefixOf (pyStrip l))).length

/-- Route counting of `netsec_dashboard.py` line 424:
`route_output.count('*>')`. -/
def routeCountMain (raw : List Char) : Nat :=
  countMarker raw

/-- Modelled from the spec: the prefix carried by a best-path route line —
the first whitespace-delimited token after the marker. -/
def routeLinePfx (l : List Char) : Option (List Char) :=
  match splitWs ((pyStrip l).drop 2) with
  | [] => none
  | t :: _ => some t

/-- Modelled from the spec: the node's route dump reports a best-path
RouteEntry for the given prefix. -/
def reportsBestPathB (pfxT : List Char) (raw : List Char) : Bool :=
  (splitOnChar '\n' raw).any
    (fun l => bestPathLineB l && decide (routeLinePfx l = some pfxT))

/-- One observed peering session: peer address and established flag.
Built from the lines the dashboards count as neighbors, taking the first
whitespace-delimited field as the peer address (the spec's SessionStatus). -/
structure SessionEntry where
  peer : List Char
  estab : Bool
deriving DecidableEq

/-- Modelled from the spec: the session list extracted from a raw
session-summary text, one entry per counted neighbor line. -/
def sessionsOfMain (raw : List Char) : List SessionEntry :=
  (splitOnChar '\n' (pyStrip raw)).filterMap
    (fun l =>
      if isNbrMainB l then
        some ⟨(splitWs l).headD [], !containsSub policyMark l⟩
      else none)

/-- Modelled from the spec: link health by peer-address matching — both
endpoints' session lists contain an Established entry whose peer address
equals the other endpoint's declared address. -/
def specLinkHealthyB (rawA rawB addrA addrB : List Char) : Bool :=
  (sessionsOfMain rawA).any (fun s => s.estab && decide (s.peer = addrB)) &&
  (sessionsOfMain rawB).any (fun s => s.estab && decide (s.peer = addrA))

/-! The per-cycle data collection.  `collect_network_data` in
`netsec_dashboard.py` (lines 368-438) shells out to `docker ps` and, per
container, to two `vtysh` commands.  The outcome of every external call is
supplied by a `World` oracle: `none` models an exception (timeout or
executor failure), `some` carries the return code and captured stdout.
Dictionaries built in container-list order are modelled as association
lists in the same order; the loop body touches only the current
container's entries, so the snapshot is the per-container function mapped
over the static container list.  The timestamp field is not modelled. -/

/-- Result of one completed external command: return code and stdout. -/
structure ExecRes where
  rc : Int
  out : List Char
deriving DecidableEq

/-- The two per-container command outcomes of one cycle
(`show ip bgp summary` and `show ip bgp`); `none` models a raised
exception. -/
structure NodeExec where
  bgp : Option ExecRes
  route : Option ExecRes
deriving DecidableEq

/-- Oracle for one poll cycle: the `docker ps` outcome and the
per-container command outcomes. -/
structure World where
  ps : Option ExecRes
  ex : List Char → NodeExec

/-- Container status strings used by the dashboards. -/
inductive CStatus
  | running
  | stopped
deriving DecidableEq

/-- The per-container record `container_data` assembled by the loop. -/
structure ContainerData where
  status : CStatus
  routes : Nat
  under_attack : Bool
deriving DecidableEq

/-- The parsed BGP session summary stored in `data['bgp_sessions']`. -/
structure BgpCounts where
  neighbors : Nat
  established : Nat
deriving DecidableEq

/-- One entry of `data['attacks']`. -/
structure AttackEvent where
  ty : List Char
  target : List Char
  network : List Char
deriving DecidableEq

/-- The snapshot published at the end of one cycle (the `data` dict). -/
structure Snapshot where
  containers : List (List Char × ContainerData)
  bgp_sessions : List (List Char × BgpCounts)
  attacks : List AttackEvent

/-- The static container list of the dashboards. -/
def containersList : List (List Char) :=
  ["as100".toList, "as200".toList, "as300".toList, "as400".toList, "as500".toList]

/-- Name of the authorized origin of the monitored prefix. -/
def as300N : List Char := "as300".toList

/-- The monitored prefix string `'8.8.8.0/24'`. -/
def hijackNet : List Char := "8.8.8.0/24".toList

/-- Attack type string `'prefix_hijack'`. -/
def hijackTy : List Char := "prefix_hijack".toList

/-- The running-container list: `stdout.strip().split('\n') if
stdout.strip() else []`, with an exception yielding `[]`
(`netsec_dashboard.py` lines 377-382; the return code is not consulted). -/
def runningOf (w : World) : List (List Char) :=
  match w.ps with
  | none => []
  | some r => if pyStrip r.out = [] then [] else splitOnChar '\n' (pyStrip r.out)

/-- The `bgp_sessions` entry produced for one running container
(`netsec_dashboard.py` lines 392-415): an exception stores zero counts, a
zero return code stores the parsed counts, and a nonzero return code
stores nothing. -/
def bgpPart (w : World) (c : List Char) : Option BgpCounts :=
  match (w.ex c).bgp with
  | none => some ⟨0, 0⟩
  | some r =>
    if r.rc = 0 then some ⟨(sessionCountsMain r.out).1, (sessionCountsMain r.out).2⟩
    else none

/-- The route count and attack verdict for one running container
(`netsec_dashboard.py` lines 417-434): on success the route count is
`route_output.count('*>')` and the container is flagged when the raw
output contains `'8.8.8.0/24'` and the container is not `as300`. -/
def routePart (w : World) (c : List Char) : Nat × Bool :=
  match (w.ex c).route with
  | none => (0, false)
  | some r =>
    if r.rc = 0 then
      (countMarker r.out, containsSub hijackNet r.out && decide (c ≠ as300N))
    else (0, false)

/-- The loop body of `collect_network_data` for one container: the
container record, the optional `bgp_sessions` entry, and the optional
attack event appended to `data['attacks']`. -/
def perContainer (w : World) (c : List Char) :
    ContainerData × Option BgpCounts × Option AttackEvent :=
  if c ∈ runningOf w then
    ((⟨CStatus.running, (routePart w c).1, (routePart w c).2⟩ : ContainerData),
     bgpPart w c,
     if (routePart w c).2 then some ⟨hijackTy, c, hijackNet⟩ else none)
  else
    ((⟨CStatus.stopped, 0, false⟩ : ContainerData), none, none)

/-- One full poll cycle of `DataCollectionThread.collect_network_data`
(`netsec_dashboard.py` lines 368-438). -/
def collect (w : World) : Snapshot where
  containers := containersList.map (fun c => (c, (perContainer w c).1))
  bgp_sessions :=
    containersList.filterMap
      (fun c => ((perContainer w c).2.1).map (fun b => (c, b)))
  attacks := containersList.filterMap (fun c => (perContainer w c).2.2)

/-- First-match association-list lookup (Python dict read by key, where
every insertion for a given key in our models stores the same value). -/
def alookup {β : Type} (k : List Char) : List (List Char × β) → Option β
  | [] => none
  | (k', v) :: rest => if k = k' then some v else alookup k rest

/-- Established-session count read from `bgp_data` with the default used
at `netsec_dashboard.py` lines 85-86:
`bgp_data.get(x, {}).get('established', 0)`. -/
def estOf (bgp : List (List Char × BgpCounts)) (c : List Char) : Nat :=
  match alookup c bgp with
  | some b => b.established
  | none => 0

/-- Link-health computation of `NetworkTopologyWidget.update_topology`
(`netsec_dashboard.py` lines 85-87): an edge is drawn healthy (green) iff
both endpoints report a positive established count. -/
def edgeHealthyMain (bgp : List (List Char × BgpCounts)) (src dst : List Char) : Bool :=
  decide (0 < estOf bgp src) && decide (0 < estOf bgp dst)

/-- Running-status test read from `container_data` with the defaults of
`netsec_dashboard_simple.py` lines 69-70:
`container_data.get(x, {}).get('status') == 'running'` (a missing key or
missing field compares unequal). -/
def statusRunningOf (cs : List (List Char × ContainerData)) (c : List Char) : Bool :=
  match alookup c cs with
  | some cd => decide (cd.status = CStatus.running)
  | none => false

/-- Link-health computation of `TopologyWidget.update_topology`
(`netsec_dashboard_simple.py` lines 65-79): a connection is drawn healthy
(green) iff both endpoints' containers are marked running; neither
session counts nor peer addresses are consulted there. -/
def edgeHealthySimple (cs : List (List Char × ContainerData)) (src dst : List Char) : Bool :=
  statusRunningOf cs src && statusRunningOf cs dst

/-! The poll loop.  `DataCollectionThread.run` (`netsec_dashboard.py`
lines 358-366 and `netsec_dashboard_v2.py` lines 518-526) is a
`while self.running` loop whose body is one `try` block: collect, emit,
sleep 2 seconds; any exception is printed and followed by a 5 second
sleep.  It is modelled as a function over the finite trace of cycle
outcomes observed before the stop flag is seen: each outcome yields what
the cycle published (`none` on an error) together with the sleep the loop
chose before the next cycle. -/

/-- Outcome of one loop iteration's `try` body: either a collected
snapshot that was emitted, or an exception raised somewhere in the body. -/
inductive CycleRes
  | ok (s : Snapshot)
  | err

/-- One iteration of `DataCollectionThread.run` in `netsec_dashboard.py`
lines 359-366: publish and sleep 2 on success, publish nothing and sleep 5
on an exception. -/
def loopStepMain : CycleRes → Option Snapshot × Nat
  | CycleRes.ok s => (some s, 2)
  | CycleRes.err => (none, 5)

/-- One iteration of the identical loop in `netsec_dashboard_v2.py`
lines 519-526. -/
def loopStepV2 : CycleRes → Option Snapshot × Nat
  | CycleRes.ok s => (some s, 2)
  | CycleRes.err => (none, 5)

/-- The whole run of the main dashboard's poll loop over a finite trace of
cycle outcomes: every outcome is processed (no outcome terminates the
loop early). -/
def runLoopMain (trace : List CycleRes) : List (Option Snapshot × Nat) :=
  trace.map loopStepMain

/-! Condition predicates and concrete cycle worlds used to witness and
refute the claims. -/

/-- The condition under which the code flags a non-origin container: its
route command succeeded and its raw output contains the monitored prefix
as a substring (anywhere, regardless of best-path marking). -/
def hijackCondB (w : World) (c : List Char) : Bool :=
  match (w.ex c).route with
  | none => false
  | some r => decide (r.rc = 0) && containsSub hijackNet r.out

/-- Modelled from the spec: the condition the claim states — the route
command succeeded and its output reports a best-path RouteEntry for the
monitored prefix. -/
def bestPathCondB (w : World) (c : List Char) : Bool :=
  match (w.ex c).route with
  | none => false
  | some r => decide (r.rc = 0) && reportsBestPathB hijackNet r.out

/-- Shorthand names for individual containers. -/
def as100N : List Char := "as100".toList

/-- Container name as200. -/
def as200N : List Char := "as200".toList

/-- Container name as500. -/
def as500N : List Char := "as500".toList

/-- A realistic established-session summary line: eleven fields, the
first of which is an address. -/
def sessTextOne : List Char := "172.20.0.11 4 65100 10 10 0 0 0 00:07:33 1 1".toList

/-- A session line whose peer is unrelated to any endpoint address. -/
def sessText9 : List Char := "9.9.9.9 4 65100 10 10 0 0 0 00:07:33 1 1".toList

/-- A route dump advertising the hijacked prefix as best path. -/
def routeTextHijack : List Char := "*> 8.8.8.0/24 0.0.0.0 0 32768 i".toList

/-- A route dump mentioning the hijacked prefix on a non-best-path line
(single star, no best-path marker anywhere). -/
def routeTextNoBest : List Char := "* 8.8.8.0/24 0.0.0.0 0 32768 i".toList

/-- A route dump with an unrelated best-path route. -/
def routeTextPlain : List Char := "*> 10.1.0.0/16 172.20.0.2 0 0 65100 i".toList

/-- Declared management addresses used in the link-health claims. -/
def addrXC : List Char := "172.20.0.10".toList

/-- Second declared management address. -/
def addrYC : List Char := "172.20.0.20".toList

/-- Output of `docker ps` listing every container. -/
def allNamesText : List Char := "as100\nas200\nas300\nas400\nas500".toList

/-- A cycle in which as500 hijacks the monitored prefix as best path and
every node answers its commands. -/
def wAttack : World where
  ps := some ⟨0, allNamesText⟩
  ex := fun c =>
    if c = as500N then ⟨some ⟨0, sessTextOne⟩, some ⟨0, routeTextHijack⟩⟩
    else ⟨some ⟨0, sessTextOne⟩, some ⟨0, routeTextPlain⟩⟩

/-- A cycle in which as500's route dump mentions the monitored prefix
only on a non-best-path line. -/
def wNoBest : World where
  ps := some ⟨0, allNamesText⟩
  ex := fun c =>
    if c = as500N then ⟨some ⟨0, sessTextOne⟩, some ⟨0, routeTextNoBest⟩⟩
    else ⟨some ⟨0, sessTextOne⟩, some ⟨0, routeTextPlain⟩⟩

/-- A cycle in which every node reports one established session with an
unrelated peer. -/
def wStray : World where
  ps := some ⟨0, allNamesText⟩
  ex := fun _ => ⟨some ⟨0, sessText9⟩, some ⟨0, routeTextPlain⟩⟩

/-- A cycle in which as100's container is listed as running but both of
its commands raise (time out). -/
def wDead : World where
  ps := some ⟨0, "as100".toList⟩
  ex := fun _ => ⟨none, none⟩

/-! Helper lemmas about the string machinery. -/

/-- Every character of a token produced by `splitWsAux` comes from the
input or from the accumulator. -/
theorem mem_of_mem_splitWsAux (l : List Char) :
    ∀ (acc t : List Char), t ∈ splitWsAux l acc → ∀ c ∈ t, c ∈ l ∨ c ∈ acc := by
  induction l with
  | nil =>
    intro acc t ht c hc
    unfold splitWsAux at ht
    by_cases hA : acc.isEmpty
    · simp [hA] at ht
    · simp [hA] at ht
      subst ht
      exact Or.inr (List.mem_reverse.mp hc)
  | cons a as ih =>
    intro acc t ht c hc
    unfold splitWsAux at ht
    by_cases ha : isWsB a = true
    · rw [if_pos ha] at ht
      by_cases hA : acc.isEmpty
      · rw [if_pos hA] at ht
        rcases ih [] t ht c hc with h | h
        · exact Or.inl (List.mem_cons_of_mem _ h)
        · simp at h
      · rw [if_neg hA] at ht
        rcases List.mem_cons.mp ht with h | h
        · subst h
          exact Or.inr (List.mem_reverse.mp hc)
        · rcases ih [] t h c hc with h' | h'
          · exact Or.inl (List.mem_cons_of_mem _ h')
          · simp at h'
    · rw [if_neg ha] at ht
      rcases ih (a :: acc) t ht c hc with h | h
      · exact Or.inl (List.mem_cons_of_mem _ h)
      · rcases List.mem_cons.mp h with h' | h'
        · subst h'
          exact Or.inl (List.mem_cons_self _ _)
        · exact Or.inr h'

/-- Every character of a `splitWs` token occurs in the split line. -/
theorem mem_of_mem_splitWs {l t : List Char} (ht : t ∈ splitWs l) {c : Char}
    (hc : c ∈ t) : c ∈ l := by
  rcases mem_of_mem_splitWsAux l [] t ht c hc with h | h
  · exact h
  · simp at h

/-- A non-whitespace member of a list survives `dropWhile isWsB`. -/
theorem mem_dropWhile_of_nonWs {c : Char} {l : List Char} (hc : c ∈ l)
    (hw : isWsB c = false) : c ∈ l.dropWhile isWsB := by
  induction l with
  | nil => simp at hc
  | cons a as ih =>
    rcases List.mem_cons.mp hc with h | h
    · subst h
      rw [List.dropWhile_cons, if_neg (by simp [hw])]
      exact List.mem_cons_self _ _
    · rw [List.dropWhile_cons]
      by_cases ha : isWsB a = true
      · rw [if_pos ha]
        exact ih h
      · rw [if_neg ha]
        exact List.mem_cons_of_mem _ h

/-- A line containing a non-whitespace character does not strip to the
empty string. -/
theorem pyStrip_ne_nil {c : Char} {l : List Char} (hc : c ∈ l)
    (hw : isWsB c = false) : pyStrip l ≠ [] := by
  have h1 : c ∈ l.dropWhile isWsB := mem_dropWhile_of_nonWs hc hw
  have h2 : c ∈ (l.dropWhile isWsB).reverse := List.mem_reverse.mpr h1
  have h3 : c ∈ (l.dropWhile isWsB).reverse.dropWhile isWsB :=
    mem_dropWhile_of_nonWs h2 hw
  exact List.ne_nil_of_mem (List.mem_reverse.mpr h3)

/-- A line passing the inner ten-field three-dot guard also passes both
variants' outer guards, which is why the extra `line.strip()` test of the
main dashboards changes nothing. -/
theorem inner_imp_outers {l : List Char} (h : innerSessB l = true) :
    outerMainB l = true ∧ outerSimpleB l = true := by
  unfold innerSessB at h
  rw [Bool.and_eq_true] at h
  obtain ⟨h10, h3⟩ := h
  have h10' : 10 ≤ (splitWs l).length := of_decide_eq_true h10
  have h3' : ((splitWs l).headD []).count '.' = 3 := of_decide_eq_true h3
  obtain ⟨t, ts, hts⟩ : ∃ t ts, splitWs l = t :: ts := by
    cases hsw : splitWs l with
    | nil => rw [hsw] at h10'; simp at h10'
    | cons t ts => exact ⟨t, ts, rfl⟩
  have htmem : t ∈ splitWs l := by rw [hts]; exact List.mem_cons_self _ _
  have hdot_t : '.' ∈ t := by
    rw [hts] at h3'
    simp only [List.headD_cons] at h3'
    exact List.count_pos_iff.mp (by omega)
  have hdot : '.' ∈ l := mem_of_mem_splitWs htmem hdot_t
  have hstrip : pyStrip l ≠ [] := pyStrip_ne_nil hdot (by decide)
  have hlen8 : 8 ≤ (splitWs l).length := by omega
  unfold outerMainB outerSimpleB
  constructor <;> simp [hstrip, hdot, hlen8]

/-- The loop body of the simple variant agrees with the main variant on
every line. -/
theorem stepSessSimple_eq_main (acc : Nat × Nat) (l : List Char) :
    stepSessSimple acc l = stepSessMain acc l := by
  unfold stepSessSimple stepSessMain
  cases hin : innerSessB l
  · cases ho1 : outerMainB l <;> cases ho2 : outerSimpleB l <;> simp [hin]
  · obtain ⟨hm, hs⟩ := inner_imp_outers hin
    simp [hm, hs]

/-- The loop body increments the two counters according to the
neighbor-line and established-line predicates. -/
theorem stepSessMain_eq (acc : Nat × Nat) (l : List Char) :
    stepSessMain acc l =
      (acc.1 + (if isNbrMainB l then 1 else 0),
       acc.2 + (if isEstMainB l then 1 else 0)) := by
  unfold stepSessMain isNbrMainB isEstMainB
  cases ho : outerMainB l <;> cases hi : innerSessB l <;>
    cases hp : containsSub policyMark l <;>
    simp [ho, hi, hp, isNbrMainB]

/-- Folding the loop body counts matching lines. -/
theorem foldl_stepSessMain (L : List (List Char)) : ∀ a b : Nat,
    L.foldl stepSessMain (a, b) = (a + L.countP isNbrMainB, b + L.countP isEstMainB) := by
  induction L with
  | nil => intro a b; simp
  | cons l L ih =>
    intro a b
    rw [List.foldl_cons, stepSessMain_eq, ih, List.countP_cons, List.countP_cons]
    cases hn : isNbrMainB l <;> cases he : isEstMainB l <;> simp [hn, he] <;> omega

/-- Declarative characterization of the session counters: neighbors and
established sessions are the counts of the corresponding line predicates. -/
theorem sessionCountsMain_spec (raw : List Char) :
    sessionCountsMain raw =
      ((splitOnChar '\n' (pyStrip raw)).countP isNbrMainB,
       (splitOnChar '\n' (pyStrip raw)).countP isEstMainB) := by
  unfold sessionCountsMain
  rw [show ((0, 0) : Nat × Nat) = (0, 0) from rfl, foldl_stepSessMain]
  simp

/-- Splitting a count along a second predicate. -/
theorem countP_and_not_add {α : Type} (p q : α → Bool) (L : List α) :
    L.countP (fun x => p x && !q x) + L.countP (fun x => p x && q x) = L.countP p := by
  induction L with
  | nil => simp
  | cons a L ih =>
    rw [List.countP_cons, List.countP_cons, List.countP_cons]
    cases hp : p a <;> cases hq : q a <;> simp [hp, hq] <;> omega

/-- Appending the marker head after a match cannot start a new match:
the marker does not overlap itself. -/
theorem markerPositions_gt_cons (rest : List Char) :
    markerPositions ('>' :: rest) = markerPositions rest := by
  match rest with
  | [] => rfl
  | c :: rs =>
    simp only [markerPositions]
    rw [if_neg (by intro hcon; exact absurd hcon.1 (by decide))]
    omega

/-- The greedy non-overlapping scan of Python `count('*>')` agrees with
counting every position at which the marker occurs, because the marker
cannot overlap itself. -/
theorem countMarker_eq_markerPositions (l : List Char) :
    countMarker l = markerPositions l := by
  induction l using countMarker.induct with
  | case1 => rfl
  | case2 a => rfl
  | case3 a b rest hab ih =>
    obtain ⟨ha, hb⟩ := hab
    subst ha; subst hb
    have h1 : countMarker ('*' :: '>' :: rest) = countMarker rest + 1 := by
      simp [countMarker]
    have h2 : markerPositions ('*' :: '>' :: rest) = 1 + markerPositions ('>' :: rest) := by
      simp [markerPositions]
    rw [h1, h2, markerPositions_gt_cons, ih]
    omega
  | case4 a b rest hab ih =>
    simp only [countMarker, markerPositions, if_neg hab]
    omega

/-! Helper lemmas about the assembled snapshot. -/

/-- Looking up a key in the association list built by mapping a function
over the key list returns that function's value. -/
theorem alookup_map_of_mem {b : Type} (f : List Char → b) :
    ∀ (l : List (List Char)) (k : List Char), k ∈ l →
      alookup k (l.map (fun x => (x, f x))) = some (f k) := by
  intro l
  induction l with
  | nil => intro k hk; simp at hk
  | cons x xs ih =>
    intro k hk
    simp only [List.map_cons]
    unfold alookup
    by_cases hkx : k = x
    · rw [if_pos hkx, hkx]
    · rw [if_neg hkx]
      exact ih k (by rcases List.mem_cons.mp hk with h | h; exact absurd h hkx; exact h)

/-- A successful lookup in the mapped association list identifies the
value and the key's membership. -/
theorem alookup_map_eq {b : Type} (f : List Char → b) :
    ∀ (l : List (List Char)) (k : List Char) (v : b),
      alookup k (l.map (fun x => (x, f x))) = some v → v = f k ∧ k ∈ l := by
  intro l
  induction l with
  | nil => intro k v h; simp [alookup] at h
  | cons x xs ih =>
    intro k v h
    simp only [List.map_cons] at h
    unfold alookup at h
    by_cases hkx : k = x
    · rw [if_pos hkx] at h
      injection h with h
      exact ⟨by rw [← h, hkx], by rw [hkx]; exact List.mem_cons_self _ _⟩
    · rw [if_neg hkx] at h
      obtain ⟨hv, hm⟩ := ih k v h
      exact ⟨hv, List.mem_cons_of_mem _ hm⟩

/-- Lookup in the optional-entry association list finds the entry stored
for a present key. -/
theorem alookup_filterMap_of_some {b : Type} (g : List Char → Option b) :
    ∀ (l : List (List Char)) (k : List Char) (v : b), k ∈ l → g k = some v →
      alookup k (l.filterMap (fun x => (g x).map (fun y => (x, y)))) = some v := by
  intro l
  induction l with
  | nil => intro k v hk; simp at hk
  | cons x xs ih =>
    intro k v hk hg
    by_cases hkx : k = x
    · subst hkx
      rw [List.filterMap_cons, hg]
      simp [alookup]
    · cases hgx : g x with
      | none =>
        rw [List.filterMap_cons, hgx]
        exact ih k v (by rcases List.mem_cons.mp hk with h | h; exact absurd h hkx; exact h) hg
      | some y =>
        rw [List.filterMap_cons, hgx]
        simp only [Option.map_some']
        unfold alookup
        rw [if_neg hkx]
        exact ih k v (by rcases List.mem_cons.mp hk with h | h; exact absurd h hkx; exact h) hg

/-- Lookup in the optional-entry association list misses a key that
stores no entry. -/
theorem alookup_filterMap_of_none {b : Type} (g : List Char → Option b) :
    ∀ (l : List (List Char)) (k : List Char), g k = none →
      alookup k (l.filterMap (fun x => (g x).map (fun y => (x, y)))) = none := by
  intro l
  induction l with
  | nil => intro k hg; rfl
  | cons x xs ih =>
    intro k hg
    cases hgx : g x with
    | none =>
      rw [List.filterMap_cons, hgx]
      exact ih k hg
    | some y =>
      rw [List.filterMap_cons, hgx]
      simp only [Option.map_some']
      unfold alookup
      have hkx : ¬ k = x := by
        intro hkx
        rw [hkx, hgx] at hg
        exact Option.noConfusion hg
      rw [if_neg hkx]
      exact ih k hg

/-- An attack event produced for a container names that container as its
target, carries the hijack type and monitored network, and coincides with
the container's attack flag. -/
theorem perContainer_event_target {w : World} {c : List Char} {e : AttackEvent}
    (h : (perContainer w c).2.2 = some e) :
    e = ⟨hijackTy, c, hijackNet⟩ ∧ c ∈ runningOf w ∧ (routePart w c).2 = true := by
  unfold perContainer at h
  by_cases hr : c ∈ runningOf w
  · rw [if_pos hr] at h
    simp only at h
    cases hf : (routePart w c).2 with
    | false => rw [hf] at h; simp at h
    | true =>
      rw [hf] at h
      simp only [if_true] at h
      injection h with h
      exact ⟨h.symm, hr, rfl⟩
  · rw [if_neg hr] at h
    simp at h

/-- A container flagged as under attack produced exactly the hijack
event naming it. -/
theorem perContainer_event_of_flag {w : World} {c : List Char}
    (h : (perContainer w c).1.under_attack = true) :
    (perContainer w c).2.2 = some ⟨hijackTy, c, hijackNet⟩ := by
  unfold perContainer at h ⊢
  by_cases hr : c ∈ runningOf w
  · rw [if_pos hr] at h ⊢
    simp only at h ⊢
    rw [h]
    simp
  · rw [if_neg hr] at h
    simp at h

/-- Membership in the published attack list comes from exactly the
per-container events. -/
theorem mem_attacks_iff {w : World} {e : AttackEvent} :
    e ∈ (collect w).attacks ↔ ∃ c, c ∈ containersList ∧ (perContainer w c).2.2 = some e := by
  unfold collect
  simp only [List.mem_filterMap]

/-- No container is the target of two attack events in one cycle: the
container list has no duplicates and each iteration appends at most one
event, tagged with its own container name. -/
theorem countP_target_le_one (w : World) (c : List Char) :
    ((collect w).attacks.countP (fun e => decide (e.target = c))) ≤ 1 := by
  unfold collect
  simp only
  have key : ∀ (l : List (List Char)), l.Nodup →
      ((l.filterMap (fun x => (perContainer w x).2.2)).countP
        (fun e => decide (e.target = c))) ≤ 1 := by
    intro l
    induction l with
    | nil => intro _; simp
    | cons x xs ih =>
      intro hl
      obtain ⟨hx, hxs⟩ := List.nodup_cons.mp hl
      cases hgx : (perContainer w x).2.2 with
      | none =>
        rw [List.filterMap_cons, hgx]
        exact ih hxs
      | some e =>
        rw [List.filterMap_cons, hgx, List.countP_cons]
        obtain ⟨he, -, -⟩ := perContainer_event_target hgx
        by_cases htc : e.target = c
        · have hxc : x = c := by rw [← htc, he]
          have hz : ((xs.filterMap (fun y => (perContainer w y).2.2)).countP
              (fun e => decide (e.target = c))) = 0 := by
            rw [List.countP_eq_zero]
            intro e2 he2
            obtain ⟨y, hy, hgy⟩ := List.mem_filterMap.mp he2
            obtain ⟨he2e, -, -⟩ := perContainer_event_target hgy
            simp only [he2e, decide_eq_true_eq]
            intro hyc
            exact hx (by rw [hxc, ← hyc]; exact hy)
          rw [hz]
          simp [htc]
        · have hb : (decide (e.target = c)) = false := by simp [htc]
          rw [hb]
          simpa using ih hxs
  exact key containersList (by decide)

/-- A line is counted as a neighbor precisely when it passes the inner
ten-field three-dot guard; the outer guard is redundant. -/
theorem isNbrMainB_eq_inner (l : List Char) : isNbrMainB l = innerSessB l := by
  unfold isNbrMainB
  cases hin : innerSessB l
  · simp [hin]
  · simp [hin, (inner_imp_outers hin).1]

/-- C1 counterexample: the claim's recognition rule — a line is a neighbor
iff its first whitespace-delimited field is IPv4-address-shaped — fails on
the line `1.2.3.4 a`, whose first field is address-shaped but which the
code does not count because it has fewer than ten fields. -/
theorem c1_counterexample : ¬ ∀ raw : List Char,
    (sessionCountsMain raw).1 = (splitOnChar '\n' (pyStrip raw)).countP lineAddrShapedB ∧
    (sessionCountsMain raw).2 =
      (splitOnChar '\n' (pyStrip raw)).countP lineAddrShapedB -
        (splitOnChar '\n' (pyStrip raw)).countP
          (fun l => lineAddrShapedB l && containsSub policyMark l) := by
  intro h
  exact absurd (h ("1.2.3.4 a".toList)).1 (by decide)

/-- C1 (amended): the session parser counts as a neighbor exactly the
lines with at least ten whitespace-delimited fields whose first field
contains exactly three dots, and counts as established exactly those
neighbor lines without the policy-hold marker; so for N such lines of
which M carry the marker, neighbors = N and established = N − M. -/
theorem c1_session_counts (raw : List Char) :
    (sessionCountsMain raw).1 = (splitOnChar '\n' (pyStrip raw)).countP innerSessB ∧
    (sessionCountsMain raw).2 =
      (splitOnChar '\n' (pyStrip raw)).countP innerSessB -
        (splitOnChar '\n' (pyStrip raw)).countP
          (fun l => innerSessB l && containsSub policyMark l) := by
  have hfun : isNbrMainB = innerSessB := funext isNbrMainB_eq_inner
  have hs := sessionCountsMain_spec raw
  rw [hs]
  have hadd := countP_and_not_add isNbrMainB (fun l => containsSub policyMark l)
    (splitOnChar '\n' (pyStrip raw))
  have he : (splitOnChar '\n' (pyStrip raw)).countP isEstMainB =
      (splitOnChar '\n' (pyStrip raw)).countP
        (fun x => isNbrMainB x && !containsSub policyMark x) := rfl
  simp only [hfun] at hadd he ⊢
  refine ⟨trivial, ?_⟩
  simp only [he]
  omega

/-- C9: the parser never reports more established sessions than
neighbors (counts are naturals, hence never negative). -/
theorem c9_established_le_neighbors (raw : List Char) :
    (sessionCountsMain raw).2 ≤ (sessionCountsMain raw).1 := by
  have hs := sessionCountsMain_spec raw
  rw [hs]
  have hadd := countP_and_not_add isNbrMainB (fun l => containsSub policyMark l)
    (splitOnChar '\n' (pyStrip raw))
  have he : (splitOnChar '\n' (pyStrip raw)).countP isEstMainB =
      (splitOnChar '\n' (pyStrip raw)).countP
        (fun x => isNbrMainB x && !containsSub policyMark x) := rfl
  simp only [he]
  omega

/-- C8: the three dashboard variants' session-counting loops compute the
same neighbor/established pair on every raw text; the simple variant's
missing `line.strip()` test is subsumed by the inner guard. -/
theorem c8_variants_agree (raw : List Char) :
    sessionCountsMain raw = sessionCountsV2 raw ∧
    sessionCountsV2 raw = sessionCountsSimple raw := by
  constructor
  · rfl
  · unfold sessionCountsV2 sessionCountsSimple
    have h : stepSessSimple = stepSessV2 := by
      funext acc l
      rw [stepSessSimple_eq_main]
      rfl
    rw [h]

/-- C5 counterexample: the main dashboard's route count on `a *> b` is 1
(one marker occurrence) although no line begins with the best-path
marker, so the count does not equal the number of best-path lines. -/
theorem c5_counterexample : ¬ ∀ (raw : List Char) (n : Nat),
    routeCountMain raw = (splitOnChar '\n' raw).countP bestPathLineB ∧
    (List.replicate n raw).map routeCountMain = List.replicate n (routeCountMain raw) := by
  intro h
  exact absurd (h ("a *> b".toList) 0).1 (by decide)

/-- C5 (amended): the dashboard's observed route count equals the number
of positions at which the best-path marker occurs anywhere in the text;
the attack simulator returns exactly one entry per line whose stripped
form begins with the marker; both are pure functions of the text, hence
idempotent across repeated calls. -/
theorem c5_route_count (raw : List Char) (n : Nat) :
    routeCountMain raw = markerPositions raw ∧
    routeCountSim raw = (splitOnChar '\n' raw).countP bestPathLineB ∧
    (List.replicate n raw).map routeCountMain = List.replicate n (routeCountMain raw) ∧
    (List.replicate n raw).map routeCountSim = List.replicate n (routeCountSim raw) := by
  refine ⟨countMarker_eq_markerPositions raw, ?_, List.map_replicate, List.map_replicate⟩
  unfold routeCountSim
  rw [List.countP_eq_length_filter]
  rfl

/-- C7: modelled over a finite trace of cycle outcomes, the poll loop
processes every outcome (an error never terminates it), publishes nothing
on an error cycle, sleeps strictly longer after an error (5 s) than after
a normal cycle (2 s), and the v2 loop behaves identically. -/
theorem c7_loop_survives (trace : List CycleRes) :
    (runLoopMain trace).length = trace.length ∧
    (∀ r ∈ trace, r = CycleRes.err →
      (loopStepMain r).1 = none ∧
      ∀ s : Snapshot, (loopStepMain (CycleRes.ok s)).2 < (loopStepMain r).2) ∧
    (∀ s : Snapshot, loopStepMain (CycleRes.ok s) = (some s, 2)) ∧
    (∀ r : CycleRes, loopStepV2 r = loopStepMain r) := by
  refine ⟨List.length_map _ _, ?_, fun s => rfl, fun r => ?_⟩
  · intro r hr hre
    subst hre
    exact ⟨rfl, fun s => by simp [loopStepMain]⟩
  · cases r <;> rfl

/-- C7 witness: an error cycle at the concrete trace publishes nothing
and backs off longer than a normal cycle sleeps. -/
theorem c7_witness : (loopStepMain CycleRes.err).1 = none ∧
    (loopStepMain (CycleRes.ok (collect wAttack))).2 < (loopStepMain CycleRes.err).2 := by
  have h := (c7_loop_survives [CycleRes.err]).2.1 CycleRes.err (List.mem_singleton.mpr rfl) rfl
  exact ⟨h.1, h.2 (collect wAttack)⟩

/-- C3: the authorized origin as300 is never flagged — no attack event
targets it and its under-attack verdict is false, whatever its routes. -/
theorem c3_origin_never_flagged (w : World) :
    (∀ e ∈ (collect w).attacks, e.target ≠ as300N) ∧
    (∀ cd : ContainerData, alookup as300N (collect w).containers = some cd →
      cd.under_attack = false) := by
  have hflag : (routePart w as300N).2 = false := by
    unfold routePart
    cases hroute : (w.ex as300N).route with
    | none => rfl
    | some r =>
      by_cases hrc : r.rc = 0
      · simp [hrc]
      · simp [hrc]
  constructor
  · intro e hemem htar
    obtain ⟨c, hcl, hg⟩ := mem_attacks_iff.mp hemem
    obtain ⟨he, hr, hf⟩ := perContainer_event_target hg
    have hc : c = as300N := by rw [he] at htar; exact htar
    rw [hc, hflag] at hf
    exact Bool.noConfusion hf
  · intro cd hcd
    have h2 : cd = (perContainer w as300N).1 ∧ as300N ∈ containersList := by
      unfold collect at hcd
      simp only at hcd
      exact alookup_map_eq _ containersList as300N cd hcd
    rw [h2.1]
    unfold perContainer
    by_cases hr : as300N ∈ runningOf w
    · rw [if_pos hr]
      simp only
      exact hflag
    · rw [if_neg hr]

/-- C3 witness: in the concrete hijack cycle the emitted event's target
is not the authorized origin. -/
theorem c3_witness : (⟨hijackTy, as500N, hijackNet⟩ : AttackEvent).target ≠ as300N :=
  (c3_origin_never_flagged wAttack).1 _ (by decide)

/-- C10: a container's under-attack flag is set iff the cycle's attack
list holds a prefix-hijack event targeting it, and no container is the
target of more than one event per cycle. -/
theorem c10_snapshot_consistent (w : World) (c : List Char) (cd : ContainerData)
    (hcd : alookup c (collect w).containers = some cd) :
    (cd.under_attack = true ↔ ∃ e ∈ (collect w).attacks, e.ty = hijackTy ∧ e.target = c) ∧
    (collect w).attacks.countP (fun e => decide (e.target = c)) ≤ 1 := by
  have hcd2 : cd = (perContainer w c).1 ∧ c ∈ containersList := by
    unfold collect at hcd
    simp only at hcd
    exact alookup_map_eq _ containersList c cd hcd
  refine ⟨⟨?_, ?_⟩, countP_target_le_one w c⟩
  · intro hu
    rw [hcd2.1] at hu
    have hev := perContainer_event_of_flag hu
    exact ⟨⟨hijackTy, c, hijackNet⟩, mem_attacks_iff.mpr ⟨c, hcd2.2, hev⟩, rfl, rfl⟩
  · rintro ⟨e, hemem, hty, htar⟩
    obtain ⟨c2, hc2, hg⟩ := mem_attacks_iff.mp hemem
    obtain ⟨he, hr, hf⟩ := perContainer_event_target hg
    have hc2c : c2 = c := by rw [he] at htar; exact htar
    subst hc2c
    rw [hcd2.1]
    unfold perContainer
    rw [if_pos hr]
    simp only
    exact hf

/-- C10 witness: applied to the concrete hijack cycle and container
as500. -/
theorem c10_witness :
    (collect wAttack).attacks.countP (fun e => decide (e.target = as500N)) ≤ 1 :=
  (c10_snapshot_consistent wAttack as500N ⟨CStatus.running, 1, true⟩ (by decide)).2

/-- C2 counterexample: in a cycle where as500's route dump mentions
8.8.8.0/24 only on a non-best-path line, the code still emits exactly one
hijack event for as500, refuting the claim that emission happens iff a
best-path RouteEntry for the prefix is reported. -/
theorem c2_counterexample : ¬ ∀ (w : World) (c : List Char), c ∈ containersList →
    c ≠ as300N → c ∈ runningOf w →
    (((collect w).attacks.countP (fun e => decide (e.target = c)) = 1) ↔
      bestPathCondB w c = true) := by
  intro h
  exact absurd (h wNoBest as500N (by decide) (by decide) (by decide)) (by decide)

/-- C2 (amended): for a running non-origin container, exactly one
prefix-hijack event naming it is emitted iff its route command succeeded
and the raw output contains the monitored prefix as a substring
(best-path marking is not consulted); the event names that node and the
monitored prefix. -/
theorem c2_detection (w : World) (c : List Char) (hcl : c ∈ containersList)
    (hc3 : c ≠ as300N) (hrun : c ∈ runningOf w) :
    (((collect w).attacks.countP (fun e => decide (e.target = c)) = 1) ↔
      hijackCondB w c = true) ∧
    (hijackCondB w c = true →
      (⟨hijackTy, c, hijackNet⟩ : AttackEvent) ∈ (collect w).attacks) := by
  have hflag : (routePart w c).2 = hijackCondB w c := by
    unfold routePart hijackCondB
    cases hroute : (w.ex c).route with
    | none => rfl
    | some r =>
      by_cases hrc : r.rc = 0
      · simp [hrc, hc3]
      · simp [hrc]
  have hev : (perContainer w c).2.2 =
      (if hijackCondB w c = true then some ⟨hijackTy, c, hijackNet⟩ else none) := by
    unfold perContainer
    rw [if_pos hrun]
    simp only
    rw [hflag]
  have hmemiff : ((⟨hijackTy, c, hijackNet⟩ : AttackEvent) ∈ (collect w).attacks) ↔
      hijackCondB w c = true := by
    constructor
    · intro hm
      obtain ⟨c2, hc2, hg⟩ := mem_attacks_iff.mp hm
      obtain ⟨he, hr2, hf⟩ := perContainer_event_target hg
      have hc2c : c = c2 := congrArg AttackEvent.target he
      rw [← hflag, hc2c]
      exact hf
    · intro hcnd
      exact mem_attacks_iff.mpr ⟨c, hcl, by rw [hev, if_pos hcnd]⟩
  constructor
  · constructor
    · intro h1
      have hpos : 0 < (collect w).attacks.countP (fun e => decide (e.target = c)) := by omega
      obtain ⟨e, hemem, hp⟩ := List.countP_pos_iff.mp hpos
      obtain ⟨c2, hc2, hg⟩ := mem_attacks_iff.mp hemem
      obtain ⟨he, hr2, hf⟩ := perContainer_event_target hg
      have htar : e.target = c := of_decide_eq_true hp
      have hc2c : c2 = c := by rw [he] at htar; exact htar
      subst hc2c
      rw [← hflag]
      exact hf
    · intro hcnd
      have hmem := hmemiff.mpr hcnd
      have hpos : 0 < (collect w).attacks.countP (fun e => decide (e.target = c)) :=
        List.countP_pos_iff.mpr ⟨_, hmem, by simp⟩
      have hle := countP_target_le_one w c
      omega
  · exact fun hcnd => hmemiff.mpr hcnd

/-- C2 witness: in the concrete hijack cycle the event naming as500 and
the monitored prefix is published. -/
theorem c2_witness : (⟨hijackTy, as500N, hijackNet⟩ : AttackEvent) ∈ (collect wAttack).attacks :=
  (c2_detection wAttack as500N (by decide) (by decide) (by decide)).2 (by decide)

/-- C4 counterexample: with both endpoints reporting one established
session with the unrelated peer 9.9.9.9, the code computes the link
healthy although neither session list holds an Established entry whose
peer equals the other endpoint's address. -/
theorem c4_counterexample : ¬ ∀ (w : World) (src dst : List Char) (rA rB : ExecRes)
    (aX aY : List Char), src ∈ containersList → dst ∈ containersList →
    src ∈ runningOf w → dst ∈ runningOf w →
    (w.ex src).bgp = some rA → rA.rc = 0 → (w.ex dst).bgp = some rB → rB.rc = 0 →
    (edgeHealthyMain (collect w).bgp_sessions src dst =
      specLinkHealthyB rA.out rB.out aX aY) := by
  intro h
  exact absurd (h wStray as100N as200N ⟨0, sessText9⟩ ⟨0, sessText9⟩ addrXC addrYC
    (by decide) (by decide) (by decide) (by decide) (by decide) (by decide)
    (by decide) (by decide)) (by decide)

/-- The established-count characterization of the main dashboard's edge
computation, used by the C4 theorem. -/
theorem c4_main_aux (w : World) (src dst : List Char) (rA rB : ExecRes)
    (hs : src ∈ containersList) (hd : dst ∈ containersList)
    (hrs : src ∈ runningOf w) (hrd : dst ∈ runningOf w)
    (hbs : (w.ex src).bgp = some rA) (hrcA : rA.rc = 0)
    (hbd : (w.ex dst).bgp = some rB) (hrcB : rB.rc = 0) :
    edgeHealthyMain (collect w).bgp_sessions src dst = true ↔
      (0 < (sessionCountsMain rA.out).2 ∧ 0 < (sessionCountsMain rB.out).2) := by
  have hgs : (perContainer w src).2.1 =
      some ⟨(sessionCountsMain rA.out).1, (sessionCountsMain rA.out).2⟩ := by
    simp [perContainer, hrs, bgpPart, hbs, hrcA]
  have hgd : (perContainer w dst).2.1 =
      some ⟨(sessionCountsMain rB.out).1, (sessionCountsMain rB.out).2⟩ := by
    simp [perContainer, hrd, bgpPart, hbd, hrcB]
  have hla : alookup src (collect w).bgp_sessions =
      some ⟨(sessionCountsMain rA.out).1, (sessionCountsMain rA.out).2⟩ := by
    unfold collect
    simp only
    exact alookup_filterMap_of_some (fun x => (perContainer w x).2.1) containersList src _ hs hgs
  have hlb : alookup dst (collect w).bgp_sessions =
      some ⟨(sessionCountsMain rB.out).1, (sessionCountsMain rB.out).2⟩ := by
    unfold collect
    simp only
    exact alookup_filterMap_of_some (fun x => (perContainer w x).2.1) containersList dst _ hd hgd
  unfold edgeHealthyMain estOf
  rw [hla, hlb]
  simp

/-- C4 (amended): in the main dashboard a declared link is computed
healthy iff both endpoints' parsed established-session counts are
positive; in the simple variant it is computed healthy iff both
endpoints' containers are marked running — neither variant matches
sessions by peer address. -/
theorem c4_link_health (w : World) (src dst : List Char) (rA rB : ExecRes)
    (hs : src ∈ containersList) (hd : dst ∈ containersList) :
    (src ∈ runningOf w → dst ∈ runningOf w →
      (w.ex src).bgp = some rA → rA.rc = 0 →
      (w.ex dst).bgp = some rB → rB.rc = 0 →
      (edgeHealthyMain (collect w).bgp_sessions src dst = true ↔
        (0 < (sessionCountsMain rA.out).2 ∧ 0 < (sessionCountsMain rB.out).2))) ∧
    (edgeHealthySimple (collect w).containers src dst = true ↔
      (src ∈ runningOf w ∧ dst ∈ runningOf w)) := by
  constructor
  · intro hrs hrd hbs hrcA hbd hrcB
    exact c4_main_aux w src dst rA rB hs hd hrs hrd hbs hrcA hbd hrcB
  · have hchar : ∀ c, c ∈ containersList →
        (statusRunningOf (collect w).containers c = true ↔ c ∈ runningOf w) := by
      intro c hc
      have hl : alookup c (collect w).containers = some (perContainer w c).1 := by
        unfold collect
        simp only
        exact alookup_map_of_mem _ containersList c hc
      have hb : statusRunningOf (collect w).containers c =
          decide ((perContainer w c).1.status = CStatus.running) := by
        unfold statusRunningOf
        rw [hl]
      rw [hb]
      by_cases hr : c ∈ runningOf w
      · simp [perContainer, hr]
      · simp [perContainer, hr]
    unfold edgeHealthySimple
    rw [Bool.and_eq_true, hchar src hs, hchar dst hd]

/-- C4 witness: in the concrete hijack cycle, where every node is
running and reports one established session, the as100-as200 edge is
computed healthy by both variants. -/
theorem c4_witness :
    edgeHealthyMain (collect wAttack).bgp_sessions as100N as200N = true ∧
    edgeHealthySimple (collect wAttack).containers as100N as200N = true := by
  have h := c4_link_health wAttack as100N as200N ⟨0, sessTextOne⟩ ⟨0, sessTextOne⟩
    (by decide) (by decide)
  exact ⟨(h.1 (by decide) (by decide) (by decide) (by decide) (by decide)
    (by decide)).mpr ⟨by decide, by decide⟩, h.2.mpr ⟨by decide, by decide⟩⟩

/-- C6 counterexample: in a cycle where as100 is listed as running but
both its commands raise, the snapshot marks it running (Online), not
Offline, refuting the claim that a failed node is marked Offline. -/
theorem c6_counterexample : ¬ ∀ (w : World) (c : List Char), c ∈ containersList →
    (w.ex c).bgp = none → (w.ex c).route = none →
    ∀ cd : ContainerData, alookup c (collect w).containers = some cd →
      cd.status = CStatus.stopped := by
  intro h
  have := h wDead as100N (by decide) (by decide) (by decide)
    ⟨CStatus.running, 0, false⟩ (by decide)
  exact absurd this (by decide)

/-- C6 (amended): a cycle always produces a complete snapshot with every
container's fresh per-container data; a listed container whose commands
both fail stays marked running with zero routes and a zero-session
entry, while an unlisted container is marked stopped with zero routes
and no session entry — no failure is surfaced as an engine error. -/
theorem c6_failure_isolated (w : World) (c : List Char) (hcl : c ∈ containersList) :
    (∀ c2 ∈ containersList, alookup c2 (collect w).containers = some (perContainer w c2).1) ∧
    (c ∈ runningOf w → (w.ex c).bgp = none → (w.ex c).route = none →
      (perContainer w c).1 = ⟨CStatus.running, 0, false⟩ ∧
      alookup c (collect w).bgp_sessions = some ⟨0, 0⟩) ∧
    (c ∉ runningOf w →
      (perContainer w c).1 = ⟨CStatus.stopped, 0, false⟩ ∧
      alookup c (collect w).bgp_sessions = none) := by
  refine ⟨?_, ?_, ?_⟩
  · intro c2 hc2
    unfold collect
    simp only
    exact alookup_map_of_mem _ containersList c2 hc2
  · intro hrun hbgp hroute
    have h1 : (perContainer w c).1 = ⟨CStatus.running, 0, false⟩ := by
      simp [perContainer, hrun, routePart, hroute]
    have h2 : (perContainer w c).2.1 = some ⟨0, 0⟩ := by
      simp [perContainer, hrun, bgpPart, hbgp]
    refine ⟨h1, ?_⟩
    unfold collect
    simp only
    exact alookup_filterMap_of_some (fun x => (perContainer w x).2.1) containersList c _ hcl h2
  · intro hrun
    have h1 : (perContainer w c).1 = ⟨CStatus.stopped, 0, false⟩ := by
      simp [perContainer, hrun]
    have h2 : (perContainer w c).2.1 = none := by
      simp [perContainer, hrun]
    refine ⟨h1, ?_⟩
    unfold collect
    simp only
    exact alookup_filterMap_of_none (fun x => (perContainer w x).2.1) containersList c h2

/-- C6 witness: applied to the concrete cycle in which as100 is listed
but both its commands raise. -/
theorem c6_witness :
    (perContainer wDead as100N).1 = ⟨CStatus.running, 0, false⟩ ∧
    alookup as100N (collect wDead).bgp_sessions = some ⟨0, 0⟩ :=
  ((c6_failure_isolated wDead as100N (by decide)).2.1) (by decide) (by decide) (by decide)

end NetSecSim
